import Mathlib

/-!
Verification of the ChatSphere server webhook and messaging pipeline.

This file gives a shallow embedding of the relevant server code:

* MetaProvider.verifyWebhookSignature (src/server/providers/meta.ts, also
  repeated in src/server/providers/base.ts) — HMAC signature check;
* normalizeWebhookPath (src/server/routes.ts) — webhook path normalizer;
* MetaProvider.parseIncoming (src/server/providers/base.ts, full variant
  with text/image/document/video/audio branches) — webhook payload parser;
* the POST /api/message/send route handler (src/server/routes.ts);
* handleMetaWebhookEvent and handleMetaWebhookVerification
  (src/server/routes.ts) — webhook POST/GET handlers;
* DatabaseStorage.sanitizeRoute / getCustomWebhookResponse (storage layer).

JavaScript semantics are modelled explicitly: runtime values are a JSON-like
inductive extended with undefined, property access on null or undefined
throws (modelled with Except), truthiness follows JavaScript, and numbers
are modelled as integers (none of the verified code does numeric
arithmetic on payload values). External collaborators (the database, the
HTTP client to the provider, crypto HMAC) are modelled as parameters or as
plain state operations, matching the boundaries the code itself draws.
-/

set_option linter.unusedVariables false

/-- A JavaScript runtime value as produced by JSON parsing, extended with
the undefined value that property misses yield. Numbers are modelled as
integers: the verified code only type-tests them or compares strings. -/
inductive JValue where
  | jundefined : JValue
  | jnull : JValue
  | jbool : Bool → JValue
  | jnum : Int → JValue
  | jstr : String → JValue
  | jarr : List JValue → JValue
  | jobj : List (String × JValue) → JValue

open JValue

mutual

/-- Structural equality of modelled values (used only to model database
equality of stored keys; JavaScript strict equality on the specific shapes
the code compares gets dedicated helpers below). -/
def beqJ : JValue → JValue → Bool
  | .jundefined, .jundefined => true
  | .jnull, .jnull => true
  | .jbool a, .jbool b => a == b
  | .jnum a, .jnum b => a == b
  | .jstr a, .jstr b => a == b
  | .jarr a, .jarr b => beqArr a b
  | .jobj a, .jobj b => beqObj a b
  | _, _ => false

def beqArr : List JValue → List JValue → Bool
  | [], [] => true
  | a :: as, b :: bs => beqJ a b && beqArr as bs
  | _, _ => false

def beqObj : List (String × JValue) → List (String × JValue) → Bool
  | [], [] => true
  | (ka, va) :: as, (kb, vb) :: bs => ka == kb && beqJ va vb && beqObj as bs
  | _, _ => false

end

/-- JavaScript truthiness. -/
def jsTruthy : JValue → Bool
  | .jundefined => false
  | .jnull => false
  | .jbool b => b
  | .jnum n => n != 0
  | .jstr s => !s.isEmpty
  | .jarr _ => true
  | .jobj _ => true

/-- Is the value null or undefined (the values on which property access
throws and which optional chaining short-circuits). -/
def isNullish : JValue → Bool
  | .jundefined => true
  | .jnull => true
  | _ => false

/-- First binding of a key in an object literal. -/
def lookupField : List (String × JValue) → String → Option JValue
  | [], _ => none
  | (k, v) :: rest, key => if k = key then some v else lookupField rest key

/-- Total property access: undefined on misses and on non-object values.
Sound only when the receiver is known not to be nullish; used to model
optional chaining and accesses guarded earlier in the code. -/
def jsGetT (v : JValue) (k : String) : JValue :=
  match v with
  | .jobj fields => (lookupField fields k).getD .jundefined
  | _ => .jundefined

/-- Property access v[k]: throws a TypeError (modelled as Except.error)
when v is null or undefined, otherwise yields the property or undefined. -/
def jsGet (v : JValue) (k : String) : Except Unit JValue :=
  if isNullish v then .error () else .ok (jsGetT v k)

/-- Optional chaining v?.k — undefined when v is nullish, no throw. -/
def jsOptGet (v : JValue) (k : String) : JValue :=
  if isNullish v then .jundefined else jsGetT v k

/-- JavaScript a || b. -/
def jsOr (a b : JValue) : JValue :=
  if jsTruthy a then a else b

/-- JavaScript a || null (used when persisting optional fields). -/
def jsOrNull (v : JValue) : JValue :=
  if jsTruthy v then v else .jnull

/-- JavaScript strict equality of a runtime value against a string literal. -/
def strictEqStr (v : JValue) (s : String) : Bool :=
  match v with
  | .jstr t => t == s
  | _ => false

/-- for..of iteration: arrays iterate their elements and strings iterate
their characters (each a one-character string); any other value raises a
TypeError. The code always checks truthiness before iterating. -/
def iterElems : JValue → Except Unit (List JValue)
  | .jarr l => .ok l
  | .jstr s => .ok (s.data.map fun c => .jstr (String.singleton c))
  | _ => .error ()

/-! ## Signature verifier

MetaProvider.verifyWebhookSignature, src/server/providers/meta.ts lines
76-103 (the identical method also appears in src/server/providers/base.ts
lines 140-167). The HMAC-SHA256 hex digest computed by the crypto module is
abstracted as a function parameter: the code treats it as an opaque
string-producing operation.
-/

/-- JavaScript String.prototype.replace with a string pattern and empty
replacement: removes the first occurrence of the pattern only. -/
def removeFirstOcc (pat : List Char) : List Char → List Char
  | [] => []
  | c :: rest =>
    if pat.isPrefixOf (c :: rest) then (c :: rest).drop pat.length
    else c :: removeFirstOcc pat rest

/-- signature.replace("sha256=", "") from the source. -/
def jsReplaceFirst (s : String) (pat : String) : String :=
  ⟨removeFirstOcc pat.data s.data⟩

/-- crypto.timingSafeEqual on the UTF-8 byte buffers of two strings: throws
when the byte lengths differ, otherwise compares contents byte by byte.
Equal-length UTF-8 encodings agree exactly when the strings are equal. -/
def timingSafeEqualE (a b : String) : Except Unit Bool :=
  if a.utf8ByteSize = b.utf8ByteSize then .ok (a == b) else .error ()

/-- The try block of verifyWebhookSignature: compute the expected digest,
strip the sha256= marker from the header value, and compare in constant
time; the comparison may throw. hmac abstracts
crypto.createHmac("sha256", appSecret).update(rawBody).digest("hex"). -/
def verifySignatureTry (hmac : String → String → String)
    (appSecret : String) (signature : String) (rawBody : String) :
    Except Unit Bool :=
  let expectedSignature := hmac appSecret rawBody
  let signatureHash := jsReplaceFirst signature "sha256="
  timingSafeEqualE signatureHash expectedSignature

/-- MetaProvider.verifyWebhookSignature. header? is the value of the
x-hub-signature-256 request header (none when absent); an empty header
string is falsy and takes the missing-header branch, exactly as the
source's if (!signature) does. The catch clause turns a thrown comparison
into false. -/
def verifyWebhookSignature (hmac : String → String → String)
    (appSecret : String) (header? : Option String) (rawBody : String) : Bool :=
  match header? with
  | none => appSecret == ""
  | some signature =>
    if signature.isEmpty then appSecret == ""
    else if appSecret == "" then true
    else
      match verifySignatureTry hmac appSecret signature rawBody with
      | .ok r => r
      | .error _ => false

/-! ## Path normalizer

normalizeWebhookPath, src/server/routes.ts lines 127-150, modelled on the
character list of the input string. The typeof guard of the source is
subsumed by the Lean type of the argument.
-/

/-- The characters String.prototype.trim removes: the WhiteSpace
productions (tab, vertical tab, form feed, space, NBSP, ZWNBSP/BOM and
every Unicode space-separator code point U+1680, U+2000 through U+200A,
U+202F, U+205F, U+3000) together with the LineTerminator productions
(LF, CR, LS, PS). -/
def isJsSpace (c : Char) : Bool :=
  c == ' ' || c == '\t' || c == '\n' || c == '\r' || c == '\x0b' ||
    c == '\x0c' || c == '\u00A0' || c == '\u1680' ||
    c == '\u2000' || c == '\u2001' || c == '\u2002' || c == '\u2003' ||
    c == '\u2004' || c == '\u2005' || c == '\u2006' || c == '\u2007' ||
    c == '\u2008' || c == '\u2009' || c == '\u200A' || c == '\u2028' ||
    c == '\u2029' || c == '\u202F' || c == '\u205F' || c == '\u3000' ||
    c == '\uFEFF'

/-- String.prototype.trim on a character list. -/
def jsTrimChars (l : List Char) : List Char :=
  ((l.dropWhile isJsSpace).reverse.dropWhile isJsSpace).reverse

/-- The global slash-run replacement of the source: collapse every run of
two or more slashes into a single slash. -/
def collapseSlashes : List Char → List Char
  | [] => []
  | [c] => [c]
  | a :: b :: rest =>
    if a == '/' && b == '/' then collapseSlashes (b :: rest)
    else a :: collapseSlashes (b :: rest)

/-- Does the list contain two adjacent slashes anywhere. -/
def hasDoubleSlash : List Char → Bool
  | a :: b :: rest => (a == '/' && b == '/') || hasDoubleSlash (b :: rest)
  | _ => false

/-- replace(/\/+$/, ""): drop every trailing slash. -/
def dropTrailingSlashes (l : List Char) : List Char :=
  (l.reverse.dropWhile (· == '/')).reverse

/-- startsWithL pre l: does l start with the character sequence pre
(String.prototype.startsWith). -/
def startsWithL : List Char → List Char → Bool
  | [], _ => true
  | _ :: _, [] => false
  | p :: ps, c :: cs => p == c && startsWithL ps cs

/-- normalizeWebhookPath from src/server/routes.ts: trim; fall back on
empty; force a leading slash; collapse slash runs; strip trailing slashes
when longer than one character; force the /webhook namespace as a string
leading part when absent; fall back when empty. -/
def normalizeWebhookPath (inputPath : String) : String :=
  let fallback := "/webhook/meta"
  let t := jsTrimChars inputPath.data
  if t.length = 0 then fallback
  else
    let n1 := if startsWithL ['/'] t then t else '/' :: t
    let n2 := collapseSlashes n1
    let n3 := if 1 < n2.length ∧ n2.getLast? = some '/' then dropTrailingSlashes n2 else n2
    let n4 := if startsWithL "/webhook".data n3 then n3
              else "/webhook".data ++ (if n3 = ['/'] then [] else n3)
    if n4.isEmpty then fallback else String.mk n4

/-- Does the string end in a character String.prototype.trim would remove. -/
def endsWithJsSpace (s : String) : Bool :=
  match s.data.getLast? with
  | some c => isJsSpace c
  | none => false

/-! ## Payload parser

MetaProvider.parseIncoming, src/server/providers/base.ts lines 169-240
(the variant recognizing text, image, document, video and audio; the
narrower copy in meta.ts lines 105-160 shares the identical traversal).
console logging is pure tracing and is not modelled.
-/

/-- The canonical event shape from src/server/providers/base.ts. An
optional field never assigned stays undefined. from is a reserved word in
Lean and is written from_. -/
structure IncomingMessageEvent where
  from_ : JValue
  body : JValue := .jundefined
  media : JValue := .jundefined
  raw : JValue

/-- One iteration of the message loop (base.ts lines 195-230): build the
event from msg.from and msg, fill body and media by message type, and push
the event — also in the unknown-type branch, where only the log differs. -/
def parseMsg (msg : JValue) : Except Unit IncomingMessageEvent := do
  let fromV ← jsGet msg "from"
  let typeV ← jsGet msg "type"
  if strictEqStr typeV "text" then do
    let t ← jsGet msg "text"
    pure { from_ := fromV, body := jsOptGet t "body", raw := msg }
  else if strictEqStr typeV "image" then do
    let img ← jsGet msg "image"
    pure { from_ := fromV,
           body := jsOptGet img "caption",
           media := .jobj [("url", jsOr (jsOptGet img "link") (jsOptGet img "id"))],
           raw := msg }
  else if strictEqStr typeV "document" then do
    let doc ← jsGet msg "document"
    pure { from_ := fromV,
           body := jsOptGet doc "caption",
           media := .jobj [("url", jsOr (jsOptGet doc "link") (jsOptGet doc "id")),
                           ("filename", jsOptGet doc "filename")],
           raw := msg }
  else if strictEqStr typeV "video" then do
    let vid ← jsGet msg "video"
    pure { from_ := fromV,
           body := jsOptGet vid "caption",
           media := .jobj [("url", jsOr (jsOptGet vid "link") (jsOptGet vid "id"))],
           raw := msg }
  else if strictEqStr typeV "audio" then do
    let aud ← jsGet msg "audio"
    pure { from_ := fromV,
           media := .jobj [("url", jsOr (jsOptGet aud "link") (jsOptGet aud "id"))],
           raw := msg }
  else
    pure { from_ := fromV, raw := msg }

/-- The inner message loop in array order. -/
def parseMsgs : List JValue → Except Unit (List IncomingMessageEvent)
  | [] => .ok []
  | m :: rest => do
    let e ← parseMsg m
    let es ← parseMsgs rest
    pure (e :: es)

/-- Sequence a branch parser over a list, concatenating results in order
(the events array accumulates across the nested loops). -/
def joinMapE (f : JValue → Except Unit (List IncomingMessageEvent)) :
    List JValue → Except Unit (List IncomingMessageEvent)
  | [] => .ok []
  | x :: rest => do
    let a ← f x
    let b ← joinMapE f rest
    pure (a ++ b)

/-- One iteration of the change loop: change.value?.messages gates the
message loop; a falsy result logs and contributes nothing. The loop header
re-reads change.value.messages, which equals the gated value because the
gate ensured change.value is not nullish. -/
def parseChange (change : JValue) : Except Unit (List IncomingMessageEvent) := do
  let valueV ← jsGet change "value"
  let msgsV := jsOptGet valueV "messages"
  if jsTruthy msgsV then do
    let msgs ← iterElems msgsV
    parseMsgs msgs
  else
    pure []

/-- One iteration of the entry loop: a falsy entry.changes is skipped with
continue. -/
def parseEntry (entry : JValue) : Except Unit (List IncomingMessageEvent) := do
  let changesV ← jsGet entry "changes"
  if jsTruthy changesV then do
    let changes ← iterElems changesV
    joinMapE parseChange changes
  else
    pure []

/-- MetaProvider.parseIncoming: a falsy payload.entry short-circuits to an
empty event list, otherwise the entries are traversed in order. -/
def parseIncomingE (payload : JValue) : Except Unit (List IncomingMessageEvent) := do
  let entryV ← jsGet payload "entry"
  if jsTruthy entryV then do
    let entries ← iterElems entryV
    joinMapE parseEntry entries
  else
    pure []

/-- Number of events of a parse outcome (zero when the parser threw). -/
def eventCount : Except Unit (List IncomingMessageEvent) → Nat
  | .ok l => l.length
  | .error _ => 0

/-! ## Storage model

The persistence layer (DatabaseStorage) is modelled as plain state on
lists. Generated ids are drawn from a counter; timestamp columns
(createdAt, lastActivityAt, updatedAt) are outside the model — the only
operation touching them, updateConversationLastAt, is therefore the
identity on the modelled state.
-/

/-- A conversation row: id and the unique external phone identity. -/
structure Conversation where
  id : String
  phone : JValue

/-- A message row with the columns the verified handlers read or write. -/
structure MessageRow where
  id : String
  conversationId : String
  direction : String
  body : JValue
  media : JValue
  providerMessageId : JValue
  status : String
  replyToMessageId : JValue
  raw : JValue

/-- The modelled database state. -/
structure Store where
  conversations : List Conversation
  messages : List MessageRow
  nextId : Nat

def getConversationById (st : Store) (id : String) : Option Conversation :=
  st.conversations.find? (fun c => c.id == id)

def getConversationByPhone (st : Store) (phone : JValue) : Option Conversation :=
  st.conversations.find? (fun c => beqJ c.phone phone)

def createConversation (st : Store) (phone : JValue) : Store × Conversation :=
  let c : Conversation := { id := "c" ++ toString st.nextId, phone := phone }
  ({ st with conversations := st.conversations ++ [c], nextId := st.nextId + 1 }, c)

def getMessageById (st : Store) (id : String) : Option MessageRow :=
  st.messages.find? (fun m => m.id == id)

/-- Insert a message row under a fresh generated id. -/
def createMessage (st : Store) (row : String → MessageRow) : Store × MessageRow :=
  let m := row ("m" ++ toString st.nextId)
  ({ st with messages := st.messages ++ [m], nextId := st.nextId + 1 }, m)

/-- Bumps only the lastActivityAt timestamp, which is outside the model. -/
def updateConversationLastAt (st : Store) (id : String) : Store :=
  st

/-- getMessageWithReplyById: the message together with the denormalized
reply target, when the stored reply reference resolves. -/
structure MessageWithReply where
  message : MessageRow
  replyTo : Option MessageRow

def getMessageWithReplyById (st : Store) (id : String) : Option MessageWithReply :=
  (getMessageById st id).map fun m =>
    { message := m
      replyTo :=
        match m.replyToMessageId with
        | .jstr rid => getMessageById st rid
        | _ => none }

/-! ## POST /api/message/send

src/server/routes.ts lines 518-650. The request fields are modelled as
optional strings (the route reads them as string-or-absent; the falsy
check of the source also fires on an empty string). The provider is
abstracted: providerCreateOk models whether createMetaProvider resolves,
sendThrows whether provider.send throws, and sendId the provider message
id of a successful send. Realtime broadcasting happens after the response
is written and is not modelled.
-/

structure SendRequest where
  «to» : Option String
  body : Option String
  media_url : Option String
  conversationId : Option String
  replyToMessageId : Option String

/-- JavaScript falsiness of a string-or-absent request field. -/
def optFalsy : Option String → Bool
  | none => true
  | some s => s.isEmpty

/-- A present field as a runtime value, absent as undefined. -/
def optToJ : Option String → JValue
  | none => .jundefined
  | some s => .jstr s

/-- The nullish coalescing x ?? null used when persisting the reply id. -/
def optCoalesceNull : Option String → JValue
  | none => .jnull
  | some s => .jstr s

/-- The two response shapes of the send route: an error JSON with a status,
or the 200 ok:true JSON carrying the persisted message (with the
denormalized reply target when present). -/
inductive ApiResponse where
  | errJson (status : Nat) (error : String)
  | okJson (message : MessageRow) (replyTo : Option MessageRow)

/-- Destination resolution when no usable conversationId was given (lines
551-564): require to, then get or create the conversation by phone. -/
def resolveByTo (st : Store) (req : SendRequest) :
    Except ApiResponse (Store × Conversation) :=
  match req.«to» with
  | none => .error (.errJson 400 "Recipient phone number is required.")
  | some toPhone =>
    if toPhone.isEmpty then .error (.errJson 400 "Recipient phone number is required.")
    else
      match getConversationByPhone st (.jstr toPhone) with
      | some c => .ok (st, c)
      | none => .ok (createConversation st (.jstr toPhone))

/-- Destination resolution (lines 542-564): a truthy conversationId is
looked up (404 when unknown), otherwise the to phone is used. -/
def resolveConversation (st : Store) (req : SendRequest) :
    Except ApiResponse (Store × Conversation) :=
  match req.conversationId with
  | some cid =>
    if cid.isEmpty then resolveByTo st req
    else
      match getConversationById st cid with
      | none => .error (.errJson 404 "Conversation not found.")
      | some c => .ok (st, c)
  | none => resolveByTo st req

/-- Reply-target validation (lines 569-585): a truthy replyToMessageId must
name an existing, same-conversation, inbound message; each violation is a
distinct 400. none means the checks passed (or no reply was requested). -/
def replyCheck (st : Store) (conversation : Conversation)
    (rid? : Option String) : Option ApiResponse :=
  match rid? with
  | none => none
  | some rid =>
    if rid.isEmpty then none
    else
      match getMessageById st rid with
      | none => some (.errJson 400 "Reply target not found.")
      | some t =>
        if t.conversationId != conversation.id then
          some (.errJson 400 "Reply target belongs to a different conversation.")
        else if t.direction != "inbound" then
          some (.errJson 400 "You can only reply to incoming messages.")
        else none

/-- media_url.split(c)[0]. -/
def jsSplitHead (s : String) (c : Char) : String :=
  ⟨s.data.takeWhile (fun x => x != c)⟩

/-- node path.basename: trailing slashes are ignored, then the last path
segment is taken; an all-slash path gives the root. -/
def pathBasename (s : String) : String :=
  let l := s.data
  let stripped := (l.reverse.dropWhile (· == '/')).reverse
  if stripped.isEmpty then (if l.isEmpty then "" else "/")
  else ⟨(stripped.reverse.takeWhile (· != '/')).reverse⟩

/-- The media metadata drafted before the provider send (lines 606-610):
for a truthy media_url, the original url together with the basename of the
url stripped of query and fragment (or attachment when that is empty). -/
def mediaMetadataOf (media_url : Option String) : JValue :=
  match media_url with
  | some mu =>
    if mu.isEmpty then .jnull
    else
      let normalizedUrl := jsSplitHead (jsSplitHead mu '?') '#'
      let filename := pathBasename (if normalizedUrl.isEmpty then "attachment" else normalizedUrl)
      .jobj [("url", .jstr mu), ("filename", .jstr filename)]
  | none => .jnull

/-- The POST /api/message/send handler. Field guards, destination
resolution and reply validation run in source order; then the provider
send is attempted (a throw is caught, leaving status failed), the message
row is persisted either way, the conversation activity is bumped, and the
ok:true response carries the stored message with its reply target. -/
def sendMessageRoute (providerCreateOk : Bool) (sendThrows : Bool)
    (sendId : Option String) (st : Store) (req : SendRequest) :
    Store × ApiResponse :=
  if optFalsy req.conversationId && optFalsy req.«to» then
    (st, .errJson 400 "conversationId or to is required.")
  else if optFalsy req.body && optFalsy req.media_url then
    (st, .errJson 400 "body or media_url is required.")
  else
    match resolveConversation st req with
    | .error resp => (st, resp)
    | .ok (st1, conversation) =>
      match replyCheck st1 conversation req.replyToMessageId with
      | some resp => (st1, resp)
      | none =>
        if providerCreateOk = false then
          -- createMetaProvider threw; the outer catch answers 500
          (st1, .errJson 500 "provider configuration error")
        else
          let mediaMetadata := mediaMetadataOf req.media_url
          let providerMessageId : JValue :=
            if sendThrows then .jnull else jsOrNull (optToJ sendId)
          let status := if sendThrows then "failed" else "sent"
          let (st2, message) := createMessage st1 (fun fid =>
            { id := fid
              conversationId := conversation.id
              direction := "outbound"
              body := jsOrNull (optToJ req.body)
              media := mediaMetadata
              providerMessageId := providerMessageId
              status := status
              replyToMessageId := optCoalesceNull req.replyToMessageId
              raw := .jnull })
          let st3 := updateConversationLastAt st2 conversation.id
          match getMessageWithReplyById st3 message.id with
          | some w => (st3, .okJson w.message w.replyTo)
          | none => (st3, .okJson message none)

/-! ## Webhook event handler (POST)

handleMetaWebhookEvent, src/server/routes.ts lines 751-861. The provider
boundary is abstracted: providerCreateOk models whether createMetaProvider
resolves, signatureValid the result of the verifyWebhookSignature call on
this request, hasAppSecret whether an app secret is configured. journalOk
models whether storage.logWebhookEvent resolves: when false every journal
write throws. Journal records keep only their response status and body. -/

structure JournalEntry where
  status : Nat
  body : String
  deriving DecidableEq

structure WebhookCtx where
  providerCreateOk : Bool
  hasAppSecret : Bool
  signatureValid : Bool
  journalOk : Bool

/-- How the handler concluded: a definitive HTTP response, or an async
rejection that leaves the request unanswered (a throw out of the catch
clause itself). -/
inductive WebhookResult where
  | responded (status : Nat) (body : String)
  | unhandledRejection
  deriving DecidableEq

/-- storage.logWebhookEvent: append the record, or throw. -/
def logWebhookEventE (journalOk : Bool) (j : List JournalEntry)
    (e : JournalEntry) : Except Unit (List JournalEntry) :=
  if journalOk then .ok (j ++ [e]) else .error ()

/-- The inbound row persisted per event (routes.ts lines 812-820). -/
def inboundRow (fid : String) (convId : String)
    (ev : IncomingMessageEvent) : MessageRow :=
  { id := fid
    conversationId := convId
    direction := "inbound"
    body := jsOrNull ev.body
    media := jsOrNull ev.media
    providerMessageId := .jnull
    status := "received"
    replyToMessageId := .jnull
    raw := ev.raw }

/-- The per-event ingestion loop (lines 798-838): get or create the
conversation by the event phone, persist the inbound message, journal the
event, bump the conversation activity, broadcast. The journal write is not
guarded: a throw escapes the loop carrying the mutations made so far. -/
def ingestEvents (journalOk : Bool) :
    List IncomingMessageEvent → Store → List JournalEntry →
    Except (Store × List JournalEntry) (Store × List JournalEntry)
  | [], st, j => .ok (st, j)
  | ev :: rest, st, j =>
    let res :=
      match getConversationByPhone st ev.from_ with
      | some c => (st, c)
      | none => createConversation st ev.from_
    let st1 := res.1
    let conversation := res.2
    let created := createMessage st1 (fun fid => inboundRow fid conversation.id ev)
    let st2 := created.1
    match logWebhookEventE journalOk j { status := 200, body := "ok" } with
    | .error _ => .error (st2, j)
    | .ok j1 => ingestEvents journalOk rest (updateConversationLastAt st2 conversation.id) j1

/-- The try block of handleMetaWebhookEvent: provider creation, signature
verification when a secret is configured, parsing, the zero-event answer,
or the ingestion loop followed by 200 ok. An escape carries the state at
the point of the throw. -/
def webhookEventTry (ctx : WebhookCtx) (st : Store) (j : List JournalEntry)
    (payload : JValue) :
    Except (Store × List JournalEntry) (Store × List JournalEntry × Nat × String) :=
  if ctx.providerCreateOk = false then .error (st, j)
  else if ctx.hasAppSecret && !ctx.signatureValid then
    match logWebhookEventE ctx.journalOk j { status := 401, body := "Invalid signature" } with
    | .error _ => .error (st, j)
    | .ok j1 => .ok (st, j1, 401, "Invalid signature")
  else
    match parseIncomingE payload with
    | .error _ => .error (st, j)
    | .ok events =>
      if events.length = 0 then
        match logWebhookEventE ctx.journalOk j { status := 200, body := "ok - no events" } with
        | .error _ => .error (st, j)
        | .ok j1 => .ok (st, j1, 200, "ok - no events")
      else
        match ingestEvents ctx.journalOk events st j with
        | .error e => .error e
        | .ok (st1, j1) => .ok (st1, j1, 200, "ok")

/-- handleMetaWebhookEvent with its outer catch (lines 843-860): on a throw
the catch first writes a journal record of the failure and only then
answers 500; when that journal write itself throws, the async handler
rejects and no response is written at all. -/
def handleMetaWebhookEvent (ctx : WebhookCtx) (st : Store)
    (j : List JournalEntry) (payload : JValue) :
    Store × List JournalEntry × WebhookResult :=
  match webhookEventTry ctx st j payload with
  | .ok (st1, j1, status, body) => (st1, j1, .responded status body)
  | .error (st1, j1) =>
    match logWebhookEventE ctx.journalOk j1 { status := 500, body := "error" } with
    | .ok j2 => (st1, j2, .responded 500 "error")
    | .error _ => (st1, j1, .unhandledRejection)

/-! ## Webhook verification handler (GET)

handleMetaWebhookVerification, src/server/routes.ts lines 677-747, and the
createMetaProvider helper, lines 55-88, which it calls inside its try
block. Query parameters are modelled as string-or-absent. -/

/-- The persisted default WhatsApp instance configuration. -/
structure InstanceCfg where
  phoneNumberId : String
  accessToken : String
  webhookVerifyToken : Option String
  appSecret : Option String
  isActive : Bool

/-- The configuration the helper reads: the persisted default instance
(none when absent) and the META_VERIFY_TOKEN environment fallback. -/
structure ProviderEnv where
  defaultInstance : Option InstanceCfg
  envVerifyToken : Option String

/-- createMetaProvider: a persisted default instance that is disabled or
lacks credentials makes the helper throw; otherwise provider construction
succeeds (the environment-fallback constructor only warns). -/
def createMetaProviderE (env : ProviderEnv) : Except String Unit :=
  match env.defaultInstance with
  | some i =>
    if i.isActive = false then .error "Default WhatsApp instance is disabled."
    else if i.accessToken.isEmpty || i.phoneNumberId.isEmpty then
      .error "Default WhatsApp instance is missing required credentials."
    else .ok ()
  | none => .ok ()

/-- instance?.webhookVerifyToken ?? META_VERIFY_TOKEN ?? "" (lines
697-700): nullish coalescing falls through an absent instance and a null
instance token to the environment, then to the empty string. -/
def expectedVerifyToken (env : ProviderEnv) : String :=
  match env.defaultInstance with
  | some i => (i.webhookVerifyToken.orElse (fun _ => env.envVerifyToken)).getD ""
  | none => env.envVerifyToken.getD ""

structure VerifyQuery where
  mode : Option String
  challenge : Option String
  verify_token : Option String

/-- String.prototype.toLowerCase, character by character (the handler only
lowercases the hub.mode query value). -/
def jsToLower (s : String) : String :=
  ⟨s.data.map Char.toLower⟩

/-- The informational body for GET requests that are not verification
attempts. -/
def webhookOnlineText : String :=
  "Meta webhook endpoint is online. To verify, Meta will call this URL with hub.mode=subscribe, hub.verify_token, and hub.challenge query parameters."

/-- handleMetaWebhookVerification. A verification attempt needs a string
hub.mode that lowercases to subscribe and a string hub.challenge; anything
else is answered 200 with an informational text before the try block. In
the try block, provider creation may throw; a missing expected token
answers 500, a mismatched token 403, a match 200 with the raw challenge —
each after its journal write. Any throw lands in the catch, which journals
the failure and answers 500 Error, itself rejecting when that journal
write throws. The handler never touches conversations or messages. -/
def handleMetaWebhookVerification (journalOk : Bool) (env : ProviderEnv)
    (st : Store) (j : List JournalEntry) (q : VerifyQuery) :
    Store × List JournalEntry × WebhookResult :=
  match q.mode, q.challenge with
  | some mode, some challenge =>
    if jsToLower mode == "subscribe" then
      let catchPath : Store × List JournalEntry × WebhookResult :=
        match logWebhookEventE journalOk j { status := 500, body := "error" } with
        | .ok j1 => (st, j1, .responded 500 "Error")
        | .error _ => (st, j, .unhandledRejection)
      match createMetaProviderE env with
      | .error _ => catchPath
      | .ok _ =>
        let expectedToken := expectedVerifyToken env
        if expectedToken.isEmpty then
          match logWebhookEventE journalOk j
              { status := 500, body := "Missing verify token configuration" } with
          | .error _ => catchPath
          | .ok j1 =>
            (st, j1, .responded 500
              "Verify token is not configured. Set META_VERIFY_TOKEN or update the Default WhatsApp Instance.")
        else if q.verify_token != some expectedToken then
          match logWebhookEventE journalOk j { status := 403, body := "Forbidden" } with
          | .error _ => catchPath
          | .ok j1 => (st, j1, .responded 403 "Forbidden")
        else
          match logWebhookEventE journalOk j { status := 200, body := challenge } with
          | .error _ => catchPath
          | .ok j1 => (st, j1, .responded 200 challenge)
    else
      (st, j, .responded 200 webhookOnlineText)
  | _, _ => (st, j, .responded 200 webhookOnlineText)

/-! ## Custom webhook route sanitization

DatabaseStorage.defaultCustomWebhookResponse, sanitizeRoute and
getCustomWebhookResponse from the storage layer (src/unnamed/part_001
lines 472-535). The stored setting is arbitrary JSON; the updatedAt
timestamps are outside the model. -/

structure RouteResponseCfg where
  status : JValue
  body : JValue

structure CustomWebhookRouteConfig where
  method : String
  path : String
  response : RouteResponseCfg

def jsTrimStr (s : String) : String :=
  ⟨jsTrimChars s.data⟩

/-- The built-in GET default route. -/
def defaultGetRoute : CustomWebhookRouteConfig :=
  { method := "GET", path := "/webhook/meta"
    response := { status := .jnum 200, body := .jstr "\x7b\x7bquery.hub.challenge\x7d\x7d" } }

/-- The built-in POST default route. -/
def defaultPostRoute : CustomWebhookRouteConfig :=
  { method := "POST", path := "/webhook/custom"
    response := { status := .jnum 200, body := .jstr "\x7b\x7bjson body\x7d\x7d" } }

/-- defaultCustomWebhookResponse().routes. -/
def defaultCustomWebhookRoutes : List CustomWebhookRouteConfig :=
  [defaultGetRoute, defaultPostRoute]

/-- DatabaseStorage.sanitizeRoute: method is POST exactly on a stored POST
method and GET otherwise; path keeps the trimmed stored path when it is a
string with nonempty trim; status and body keep the stored values exactly
when a number and a string; every malformed field falls back to the given
default route field. -/
def sanitizeRoute (route : JValue) (fallback : CustomWebhookRouteConfig) :
    CustomWebhookRouteConfig :=
  let method := if strictEqStr (jsOptGet route "method") "POST" then "POST" else "GET"
  let path :=
    match jsOptGet route "path" with
    | .jstr s => if 0 < (jsTrimStr s).length then jsTrimStr s else fallback.path
    | _ => fallback.path
  let status :=
    match jsOptGet (jsOptGet route "response") "status" with
    | .jnum n => JValue.jnum n
    | _ => fallback.response.status
  let body :=
    match jsOptGet (jsOptGet route "response") "body" with
    | .jstr s => JValue.jstr s
    | _ => fallback.response.body
  { method := method, path := path
    response := { status := status, body := body } }

/-- DatabaseStorage.getCustomWebhookResponse: a falsy stored setting or a
non-array routes field yields the defaults; otherwise each stored route is
sanitized against the default route of its method (the GET default when
the method matches nothing), and an empty result again yields the
defaults. stored models the app-setting value, none being SQL null. -/
def getCustomWebhookResponse (stored : Option JValue) :
    List CustomWebhookRouteConfig :=
  let defaults := defaultCustomWebhookRoutes
  match stored with
  | none => defaults
  | some sv =>
    if !jsTruthy sv then defaults
    else
      match jsGetT sv "routes" with
      | .jarr storedRoutes =>
        let routes := storedRoutes.map (fun route =>
          let fallback :=
            (defaults.find? (fun r =>
              strictEqStr (jsOptGet route "method") r.method)).getD defaultGetRoute
          sanitizeRoute route fallback)
        if 0 < routes.length then routes else defaults
      | _ => defaults


/-! ## Concrete fixtures

Payloads, stores and configurations used to evaluate the definitions at
specific inputs. -/

/-- A provider message of an unrecognized subtype. -/
def stickerMsg : JValue :=
  jobj [("from", jstr "15551234567"), ("type", jstr "sticker")]

/-- A well-formed envelope around a single unrecognized-subtype message. -/
def stickerPayload : JValue :=
  jobj [("entry", jarr [jobj [("changes", jarr [jobj [("value",
    jobj [("messages", jarr [stickerMsg])])]])]])]

/-- An envelope whose single entry is null: the changes array of that
entry is missing. -/
def nullEntryPayload : JValue :=
  jobj [("entry", jarr [jnull])]

/-- A standard single text message. -/
def textMsg : JValue :=
  jobj [("from", jstr "15551234567"), ("type", jstr "text"),
        ("text", jobj [("body", jstr "hi")])]

/-- A well-formed envelope around the single text message. -/
def textPayload : JValue :=
  jobj [("entry", jarr [jobj [("changes", jarr [jobj [("value",
    jobj [("messages", jarr [textMsg])])]])]])]

/-- The empty database state. -/
def emptyStore : Store :=
  { conversations := [], messages := [], nextId := 0 }

/-- A state with two conversations, an inbound and an outbound message. -/
def sampleStore : Store :=
  { conversations := [{ id := "c1", phone := jstr "555" },
                      { id := "c2", phone := jstr "666" }]
    messages := [{ id := "in1", conversationId := "c1", direction := "inbound",
                   body := jstr "hello", media := jnull, providerMessageId := jnull,
                   status := "received", replyToMessageId := jnull, raw := jnull },
                 { id := "out1", conversationId := "c1", direction := "outbound",
                   body := jstr "yo", media := jnull, providerMessageId := jnull,
                   status := "sent", replyToMessageId := jnull, raw := jnull }]
    nextId := 0 }

/-- A disabled but fully credentialed persisted instance with verify
token abc. -/
def disabledInstance : InstanceCfg :=
  { phoneNumberId := "p", accessToken := "t", webhookVerifyToken := some "abc"
    appSecret := none, isActive := false }

/-- A configuration holding the disabled instance. -/
def disabledInstanceEnv : ProviderEnv :=
  { defaultInstance := some disabledInstance, envVerifyToken := none }

/-- Configuration with no persisted instance and environment token abc. -/
def envTokenOnly : ProviderEnv :=
  { defaultInstance := none, envVerifyToken := some "abc" }

/-- A verification handshake presenting token abc with challenge 999. -/
def subscribeQuery : VerifyQuery :=
  { mode := some "subscribe", challenge := some "999", verify_token := some "abc" }

/-- The same handshake presenting a wrong token. -/
def subscribeQueryWrong : VerifyQuery :=
  { mode := some "subscribe", challenge := some "999", verify_token := some "wrong" }

/-- A stored custom route whose path, status and body are all malformed. -/
def malformedRoute : JValue :=
  jobj [("method", jstr "POST"), ("path", jstr "  "),
        ("response", jobj [("status", jstr "x")])]

/-- A send request replying to a nonexistent message id. -/
def sendReqBadReply : SendRequest :=
  { «to» := none, body := some "x", media_url := none
    conversationId := some "c1", replyToMessageId := some "zzz" }

/-- A send request with no reply target. -/
def sendReqNoReply : SendRequest :=
  { «to» := none, body := some "x", media_url := none
    conversationId := some "c1", replyToMessageId := none }

/-- The first conversation of the sample state. -/
def conv1 : Conversation := { id := "c1", phone := jstr "555" }

/-! # Theorems -/

/-- With a configured secret and a truthy header, the verifier computes
exactly the equality of the stripped header and the expected digest: a
byte-length mismatch throws, is caught and yields false, which coincides
with the strings being unequal. -/
theorem verifyWebhookSignature_some_eq (hmac : String → String → String)
    (secret h body : String) (hsecret : secret ≠ "") (hh : h ≠ "") :
    verifyWebhookSignature hmac secret (some h) body =
      (jsReplaceFirst h "sha256=" == hmac secret body) := by
  have hhe : h.isEmpty = false := by
    cases he : h.isEmpty
    · rfl
    · exact absurd ((String.isEmpty_iff h).mp he) hh
  have hse : (secret == "") = false := by
    cases hs : secret == ""
    · rfl
    · exact absurd (beq_iff_eq.mp hs) hsecret
  unfold verifyWebhookSignature verifySignatureTry timingSafeEqualE
  simp only [hhe, hse, Bool.false_eq_true, if_false]
  by_cases hsz : (jsReplaceFirst h "sha256=").utf8ByteSize = (hmac secret body).utf8ByteSize
  · simp [hsz]
  · simp only [hsz, if_false]
    cases hb : jsReplaceFirst h "sha256=" == hmac secret body
    · rfl
    · exact absurd (congrArg String.utf8ByteSize (beq_iff_eq.mp hb)) hsz

/-- C1: For every combination of configured app secret and provided
X-Hub-Signature-256 header, verifyWebhookSignature follows the truth
table: no secret configured passes with or without a header; a secret with
no (or an empty, hence falsy) header fails; a secret with a header passes
exactly when the hex digest of the raw body under the secret equals the
hex portion of the header, so a body whose digest differs — in particular
any body change that changes the HMAC digest — makes a previously passing
verification fail. -/
theorem verifyWebhookSignature_truth_table
    (hmac : String → String → String) (secret h body body2 : String)
    (header? : Option String) (hsecret : secret ≠ "") (hh : h ≠ "") :
    (verifyWebhookSignature hmac "" header? body = true) ∧
    (verifyWebhookSignature hmac secret none body = false) ∧
    (verifyWebhookSignature hmac secret (some "") body = false) ∧
    (verifyWebhookSignature hmac secret (some h) body = true ↔
      jsReplaceFirst h "sha256=" = hmac secret body) ∧
    (verifyWebhookSignature hmac secret (some h) body = true →
      hmac secret body2 ≠ hmac secret body →
      verifyWebhookSignature hmac secret (some h) body2 = false) := by
  have hse : (secret == "") = false := by
    cases hs : secret == ""
    · rfl
    · exact absurd (beq_iff_eq.mp hs) hsecret
  refine ⟨?_, ?_, ?_, ?_, ?_⟩
  · cases header? with
    | none => simp [verifyWebhookSignature]
    | some h0 =>
      by_cases hh0 : h0.isEmpty <;> simp [verifyWebhookSignature, hh0]
  · simp [verifyWebhookSignature, hse]
  · simp [verifyWebhookSignature, hse, show ("" : String).isEmpty = true from rfl]
  · rw [verifyWebhookSignature_some_eq hmac secret h body hsecret hh]
    exact beq_iff_eq
  · intro hpass hne
    rw [verifyWebhookSignature_some_eq hmac secret h body hsecret hh] at hpass
    rw [verifyWebhookSignature_some_eq hmac secret h body2 hsecret hh]
    cases hb : jsReplaceFirst h "sha256=" == hmac secret body2
    · rfl
    · exact absurd (beq_iff_eq.mp hpass ▸ beq_iff_eq.mp hb) (fun e => hne e.symm)

/-- Witness for C1 at a toy digest function: a matching triple passes and
a body with a different digest fails. -/
theorem verifyWebhookSignature_truth_table_witness :
    ("sec" : String) ≠ "" ∧ ("sha256=hsecx" : String) ≠ "" ∧
    verifyWebhookSignature (fun s b => "h" ++ s ++ b) "sec" (some "sha256=hsecx") "x" = true ∧
    verifyWebhookSignature (fun s b => "h" ++ s ++ b) "sec" (some "sha256=hsecx") "y" = false :=
  ⟨by decide, by decide,
   (verifyWebhookSignature_truth_table (fun s b => "h" ++ s ++ b) "sec" "sha256=hsecx"
      "x" "y" none (by decide) (by decide)).2.2.2.1.mpr (by decide),
   (verifyWebhookSignature_truth_table (fun s b => "h" ++ s ++ b) "sec" "sha256=hsecx"
      "x" "y" none (by decide) (by decide)).2.2.2.2
     ((verifyWebhookSignature_truth_table (fun s b => "h" ++ s ++ b) "sec" "sha256=hsecx"
        "x" "y" none (by decide) (by decide)).2.2.2.1.mpr (by decide))
     (by decide)⟩

/-- C9: verifyWebhookSignature is total — it returns a boolean for every
header value, secret and raw body — and when the hex portion of the header
has a different byte length than the expected digest the constant-time
comparison throws, the exception is caught, and the verifier returns
false. -/
theorem verifyWebhookSignature_total
    (hmac : String → String → String) (secret body : String)
    (header? : Option String) :
    (verifyWebhookSignature hmac secret header? body = true ∨
      verifyWebhookSignature hmac secret header? body = false) ∧
    (∀ h, header? = some h → h ≠ "" → secret ≠ "" →
      (jsReplaceFirst h "sha256=").utf8ByteSize ≠ (hmac secret body).utf8ByteSize →
      verifySignatureTry hmac secret h body = .error () ∧
      verifyWebhookSignature hmac secret header? body = false) := by
  refine ⟨?_, ?_⟩
  · cases hv : verifyWebhookSignature hmac secret header? body
    · exact Or.inr rfl
    · exact Or.inl rfl
  · intro h hh hhne hsne hsz
    subst hh
    have htry : verifySignatureTry hmac secret h body = .error () := by
      unfold verifySignatureTry timingSafeEqualE
      simp [hsz]
    refine ⟨htry, ?_⟩
    rw [verifyWebhookSignature_some_eq hmac secret h body hsne hhne]
    cases hb : jsReplaceFirst h "sha256=" == hmac secret body
    · rfl
    · exact absurd (congrArg String.utf8ByteSize (beq_iff_eq.mp hb)) hsz

/-- Witness for C9: a header whose hex portion is two bytes against a
four-byte digest is rejected through the caught comparison throw. -/
theorem verifyWebhookSignature_total_witness :
    (some "sha256=zz" = some ("sha256=zz" : String)) ∧ ("sha256=zz" : String) ≠ "" ∧
    ("sec" : String) ≠ "" ∧
    (jsReplaceFirst "sha256=zz" "sha256=").utf8ByteSize ≠
      ((fun (_ _ : String) => "hash") "sec" "x").utf8ByteSize ∧
    verifySignatureTry (fun _ _ => "hash") "sec" "sha256=zz" "x" = .error () ∧
    verifyWebhookSignature (fun _ _ => "hash") "sec" (some "sha256=zz") "x" = false :=
  ⟨rfl, by decide, by decide, by decide,
   ((verifyWebhookSignature_total (fun _ _ => "hash") "sec" "x" (some "sha256=zz")).2
      "sha256=zz" rfl (by decide) (by decide) (by decide)).1,
   ((verifyWebhookSignature_total (fun _ _ => "hash") "sec" "x" (some "sha256=zz")).2
      "sha256=zz" rfl (by decide) (by decide) (by decide)).2⟩

/-- Binding a successful Except value applies the continuation. -/
@[simp] theorem exceptOk_bind {α β : Type} (a : α) (f : α → Except Unit β) :
    (Except.ok a >>= f : Except Unit β) = f a := rfl

/-- Binding a thrown Except value propagates the throw. -/
@[simp] theorem exceptError_bind {α β : Type} (f : α → Except Unit β) :
    (Except.error () >>= f : Except Unit β) = Except.error () := rfl

/-- Pure in the Except monad is ok. -/
@[simp] theorem exceptPure_eq_ok {α : Type} (a : α) :
    (pure a : Except Unit α) = Except.ok a := rfl

/-- parseMsg succeeds on every message value that is not nullish: each
branch only reads properties of msg (safe once msg.from succeeded) and of
optional-chained children. -/
theorem parseMsg_ok (msg : JValue) (h : isNullish msg = false) :
    ∃ e, parseMsg msg = .ok e := by
  unfold parseMsg
  simp only [jsGet, h, Bool.false_eq_true, if_false, exceptOk_bind]
  repeat' first
  | exact ⟨_, rfl⟩
  | split

/-- parseMsgs succeeds on lists of non-nullish messages and yields exactly
one event per message. -/
theorem parseMsgs_length (msgs : List JValue)
    (h : ∀ m ∈ msgs, isNullish m = false) :
    ∃ l, parseMsgs msgs = .ok l ∧ l.length = msgs.length := by
  induction msgs with
  | nil => exact ⟨[], rfl, rfl⟩
  | cons m rest ih =>
    obtain ⟨e, he⟩ := parseMsg_ok m (h m (List.mem_cons_self m rest))
    obtain ⟨l, hl, hlen⟩ := ih (fun x hx => h x (List.mem_cons_of_mem _ hx))
    refine ⟨e :: l, ?_, by simp [hlen]⟩
    simp [parseMsgs, he, hl]

/-- C3 (amended): unrecognized subtypes are not fatal — processing
continues and the parser never drops a message — but they are not skipped
either: a message whose type is none of text, image, document, video,
audio still yields a canonical event, carrying only the sender and the
raw message, with no body and no media; every list of non-nullish
messages yields exactly one event per message. -/
theorem parseIncoming_unknown_type_event
    (msg : JValue) (hm : isNullish msg = false)
    (ht : strictEqStr (jsGetT msg "type") "text" = false)
    (hi : strictEqStr (jsGetT msg "type") "image" = false)
    (hd : strictEqStr (jsGetT msg "type") "document" = false)
    (hv : strictEqStr (jsGetT msg "type") "video" = false)
    (ha : strictEqStr (jsGetT msg "type") "audio" = false) :
    parseMsg msg = .ok { from_ := jsGetT msg "from", body := .jundefined,
                         media := .jundefined, raw := msg } ∧
    (∀ msgs, (∀ m ∈ msgs, isNullish m = false) →
      ∃ l, parseMsgs msgs = .ok l ∧ l.length = msgs.length) := by
  constructor
  · unfold parseMsg
    simp only [jsGet, hm, Bool.false_eq_true, if_false, exceptOk_bind,
      ht, hi, hd, hv, ha, exceptPure_eq_ok]
  · exact parseMsgs_length

/-- Witness for C3 at the sticker message: the unknown-type event carries
sender and raw payload only. -/
theorem parseIncoming_unknown_type_event_witness :
    isNullish stickerMsg = false ∧
    strictEqStr (jsGetT stickerMsg "type") "text" = false ∧
    parseMsg stickerMsg = .ok { from_ := jsGetT stickerMsg "from",
                                body := .jundefined, media := .jundefined,
                                raw := stickerMsg } :=
  ⟨rfl, rfl,
   (parseIncoming_unknown_type_event stickerMsg rfl rfl rfl rfl rfl rfl).1⟩

/-- C3 counterexample: a payload whose single message has the unrecognized
type sticker yields one canonical event, not zero — the message is pushed,
not skipped. -/
theorem parseIncoming_unknown_type_not_skipped :
    eventCount (parseIncomingE stickerPayload) = 1 := rfl

/-- C2 (amended): a missing entries array, a missing changes array of a
non-null entry, or a missing messages array of a non-null change yields an
empty list (or a list omitting the affected branch) without a throw: a
falsy payload.entry answers the empty list; an entries array reduces the
parse to the concatenation over its entries; a falsy entry.changes
contributes nothing, a changes array reduces to the concatenation over
its changes; a falsy change.value?.messages contributes nothing. -/
theorem parseIncoming_missing_arrays :
    (∀ payload, isNullish payload = false →
        jsTruthy (jsGetT payload "entry") = false →
        parseIncomingE payload = .ok []) ∧
    (∀ payload entries, isNullish payload = false →
        jsGetT payload "entry" = .jarr entries →
        parseIncomingE payload = joinMapE parseEntry entries) ∧
    (∀ entry, isNullish entry = false →
        jsTruthy (jsGetT entry "changes") = false →
        parseEntry entry = .ok []) ∧
    (∀ entry changes, isNullish entry = false →
        jsGetT entry "changes" = .jarr changes →
        parseEntry entry = joinMapE parseChange changes) ∧
    (∀ change, isNullish change = false →
        jsTruthy (jsOptGet (jsGetT change "value") "messages") = false →
        parseChange change = .ok []) := by
  refine ⟨?_, ?_, ?_, ?_, ?_⟩
  · intro payload hp hf
    unfold parseIncomingE
    simp only [jsGet, hp, Bool.false_eq_true, if_false, exceptOk_bind, hf,
      exceptPure_eq_ok]
  · intro payload entries hp he
    unfold parseIncomingE
    simp only [jsGet, hp, Bool.false_eq_true, if_false, exceptOk_bind, he]
    simp [jsTruthy, iterElems]
  · intro entry hp hf
    unfold parseEntry
    simp only [jsGet, hp, Bool.false_eq_true, if_false, exceptOk_bind, hf,
      exceptPure_eq_ok]
  · intro entry changes hp he
    unfold parseEntry
    simp only [jsGet, hp, Bool.false_eq_true, if_false, exceptOk_bind, he]
    simp [jsTruthy, iterElems]
  · intro change hp hf
    unfold parseChange
    simp only [jsGet, hp, Bool.false_eq_true, if_false, exceptOk_bind, hf,
      exceptPure_eq_ok]

/-- Witness for C2: an empty object payload and an envelope of one
changes-less entry both parse to the empty list. -/
theorem parseIncoming_missing_arrays_witness :
    isNullish (JValue.jobj []) = false ∧
    jsTruthy (jsGetT (JValue.jobj []) "entry") = false ∧
    parseIncomingE (JValue.jobj []) = .ok [] ∧
    parseEntry (JValue.jobj []) = .ok [] :=
  ⟨rfl, rfl, parseIncoming_missing_arrays.1 (JValue.jobj []) rfl rfl,
   (parseIncoming_missing_arrays.2.2.1) (JValue.jobj []) rfl rfl⟩

/-- C2 counterexample: the payload whose entry array holds null — so the
changes array of that entry is missing — makes parseIncoming throw a
TypeError instead of returning an empty list. -/
theorem parseIncoming_null_entry_throws :
    parseIncomingE nullEntryPayload = .error () := rfl

/-- sanitizeRoute preserves the route invariant: given a well-formed
fallback it produces a GET-or-POST method, a nonempty path, a numeric
status and a string body. -/
theorem sanitizeRoute_inv (route : JValue) (fb : CustomWebhookRouteConfig)
    (hm : fb.method = "GET" ∨ fb.method = "POST") (hp : fb.path ≠ "")
    (hs : ∃ n, fb.response.status = JValue.jnum n)
    (hb : ∃ s, fb.response.body = JValue.jstr s) :
    ((sanitizeRoute route fb).method = "GET" ∨
      (sanitizeRoute route fb).method = "POST") ∧
    (sanitizeRoute route fb).path ≠ "" ∧
    (∃ n, (sanitizeRoute route fb).response.status = JValue.jnum n) ∧
    (∃ s, (sanitizeRoute route fb).response.body = JValue.jstr s) := by
  refine ⟨?_, ?_, ?_, ?_⟩
  · unfold sanitizeRoute
    simp only
    split
    · exact Or.inr rfl
    · exact Or.inl rfl
  · unfold sanitizeRoute
    simp only
    split
    next s hsv =>
      split
      next hlen =>
        intro he
        rw [he] at hlen
        simp at hlen
      next => exact hp
    next => exact hp
  · unfold sanitizeRoute
    simp only
    split
    next n hn => exact ⟨n, rfl⟩
    next => exact hs
  · unfold sanitizeRoute
    simp only
    split
    next s hsv => exact ⟨s, rfl⟩
    next => exact hb

/-- Both built-in default routes satisfy the route invariant. -/
theorem defaultRoutes_inv (x : CustomWebhookRouteConfig)
    (hx : x ∈ defaultCustomWebhookRoutes) :
    (x.method = "GET" ∨ x.method = "POST") ∧ x.path ≠ "" ∧
    (∃ n, x.response.status = JValue.jnum n) ∧
    (∃ s, x.response.body = JValue.jstr s) := by
  simp only [defaultCustomWebhookRoutes, List.mem_cons,
    List.not_mem_nil, or_false] at hx
  rcases hx with rfl | rfl
  · exact ⟨Or.inl rfl, by decide, ⟨200, rfl⟩, ⟨_, rfl⟩⟩
  · exact ⟨Or.inr rfl, by decide, ⟨200, rfl⟩, ⟨_, rfl⟩⟩

/-- C10: every route returned by getCustomWebhookResponse satisfies the
sanitization invariant regardless of the stored settings value — method
exactly GET or POST, nonempty path, numeric response status, string
response body — and each malformed field of a stored route is replaced
field-wise by the fallback default route value. -/
theorem custom_webhook_routes_sanitized :
    (∀ stored r, r ∈ getCustomWebhookResponse stored →
      (r.method = "GET" ∨ r.method = "POST") ∧ r.path ≠ "" ∧
      (∃ n, r.response.status = JValue.jnum n) ∧
      (∃ s, r.response.body = JValue.jstr s)) ∧
    (∀ route fb, strictEqStr (jsOptGet route "method") "POST" = false →
      (sanitizeRoute route fb).method = "GET") ∧
    (∀ route fb, (∀ s, jsOptGet route "path" = JValue.jstr s →
        (jsTrimStr s).length = 0) →
      (sanitizeRoute route fb).path = fb.path) ∧
    (∀ route fb,
      (∀ n, jsOptGet (jsOptGet route "response") "status" ≠ JValue.jnum n) →
      (sanitizeRoute route fb).response.status = fb.response.status) ∧
    (∀ route fb,
      (∀ s, jsOptGet (jsOptGet route "response") "body" ≠ JValue.jstr s) →
      (sanitizeRoute route fb).response.body = fb.response.body) := by
  refine ⟨?_, ?_, ?_, ?_, ?_⟩
  · intro stored r hr
    cases stored with
    | none => exact defaultRoutes_inv r hr
    | some sv =>
      unfold getCustomWebhookResponse at hr
      by_cases htr : jsTruthy sv
      · simp only [htr, Bool.not_true, Bool.false_eq_true, if_false] at hr
        split at hr
        next storedRoutes hroutes =>
          split at hr
          · rw [List.mem_map] at hr
            obtain ⟨route, hmem, rfl⟩ := hr
            rcases hfind : defaultCustomWebhookRoutes.find? (fun rr =>
                strictEqStr (jsOptGet route "method") rr.method) with _ | x
            · simp only [hfind, Option.getD_none]
              exact sanitizeRoute_inv route defaultGetRoute
                (Or.inl rfl) (by decide) ⟨200, rfl⟩ ⟨_, rfl⟩
            · simp only [hfind, Option.getD_some]
              obtain ⟨h1, h2, h3, h4⟩ :=
                defaultRoutes_inv x (List.mem_of_find?_eq_some hfind)
              exact sanitizeRoute_inv route x h1 h2 h3 h4
          · exact defaultRoutes_inv r hr
        next => exact defaultRoutes_inv r hr
      · simp only [htr, Bool.not_false, if_true] at hr
        exact defaultRoutes_inv r hr
  · intro route fb hm
    unfold sanitizeRoute
    simp only [hm, Bool.false_eq_true, if_false]
  · intro route fb hpath
    unfold sanitizeRoute
    simp only
    split
    next s hs =>
      rw [hpath s hs]
      simp
    next => rfl
  · intro route fb hstat
    unfold sanitizeRoute
    simp only
  · intro route fb hbody
    unfold sanitizeRoute
    simp only

/-- Witness for C10: the default configuration satisfies the invariant and
the fully malformed stored route keeps the fallback path. -/
theorem custom_webhook_routes_sanitized_witness :
    defaultGetRoute ∈ getCustomWebhookResponse none ∧
    ((defaultGetRoute.method = "GET" ∨ defaultGetRoute.method = "POST") ∧
      defaultGetRoute.path ≠ "" ∧
      (∃ n, defaultGetRoute.response.status = JValue.jnum n) ∧
      (∃ s, defaultGetRoute.response.body = JValue.jstr s)) ∧
    (sanitizeRoute malformedRoute defaultPostRoute).path = defaultPostRoute.path :=
  ⟨List.mem_cons_self defaultGetRoute [defaultPostRoute],
   custom_webhook_routes_sanitized.1 none defaultGetRoute
     (List.mem_cons_self defaultGetRoute [defaultPostRoute]),
   custom_webhook_routes_sanitized.2.2.1 malformedRoute defaultPostRoute
     (fun s h => by cases h; decide)⟩

/-- Resolution by recipient phone never touches the message table: it at
most creates a conversation. -/
theorem resolveByTo_messages (st st1 : Store) (conv : Conversation)
    (req : SendRequest) (h : resolveByTo st req = .ok (st1, conv)) :
    st1.messages = st.messages := by
  unfold resolveByTo at h
  rcases hto : req.«to» with _ | toPhone
  · simp only [hto] at h
    cases h
  · simp only [hto] at h
    by_cases hemp : toPhone.isEmpty = true
    · rw [if_pos hemp] at h
      cases h
    · rw [if_neg hemp] at h
      rcases hlk : getConversationByPhone st (JValue.jstr toPhone) with _ | c
      all_goals simp only [hlk] at h
      · injection h with h3
        have h4 := congrArg (fun p => (p : Store × Conversation).1.messages) h3
        exact h4.symm
      · injection h with h3
        have h4 := congrArg (fun p => (p : Store × Conversation).1.messages) h3
        exact h4.symm

/-- Destination resolution never touches the message table. -/
theorem resolveConversation_messages (st st1 : Store) (conv : Conversation)
    (req : SendRequest) (h : resolveConversation st req = .ok (st1, conv)) :
    st1.messages = st.messages := by
  unfold resolveConversation at h
  rcases hcid : req.conversationId with _ | cid
  · simp only [hcid] at h
    exact resolveByTo_messages st st1 conv req h
  · simp only [hcid] at h
    by_cases hemp : cid.isEmpty = true
    · rw [if_pos hemp] at h
      exact resolveByTo_messages st st1 conv req h
    · rw [if_neg hemp] at h
      rcases hlk : getConversationById st cid with _ | c
      all_goals simp only [hlk] at h
      · cases h
      · injection h with h3
        have h4 := congrArg (fun p => (p : Store × Conversation).1.messages) h3
        exact h4.symm

/-- A truthy reply id whose target is missing, cross-conversation or not
inbound makes the reply validation answer a 400 error. -/
theorem replyCheck_bad (st1 : Store) (conv : Conversation) (rid : String)
    (hridne : rid ≠ "")
    (hbad : getMessageById st1 rid = none ∨
      ∃ t, getMessageById st1 rid = some t ∧
        (t.conversationId ≠ conv.id ∨ t.direction ≠ "inbound")) :
    ∃ m, replyCheck st1 conv (some rid) = some (.errJson 400 m) := by
  have hre : rid.isEmpty = false := by
    cases he : rid.isEmpty
    · rfl
    · exact absurd ((String.isEmpty_iff rid).mp he) hridne
  unfold replyCheck
  simp only [hre, Bool.false_eq_true, if_false]
  rcases hbad with hnone | ⟨t, ht, hcase⟩
  · rw [hnone]
    exact ⟨_, rfl⟩
  · rw [ht]
    by_cases hc : t.conversationId = conv.id
    · have hd : t.direction ≠ "inbound" := by
        rcases hcase with hx | hx
        · exact absurd hc hx
        · exact hx
      have hcb : (t.conversationId != conv.id) = false := by
        simp [hc]
      have hdb : (t.direction != "inbound") = true := bne_iff_ne.mpr hd
      simp only [hcb, Bool.false_eq_true, if_false, hdb, if_true]
      exact ⟨_, rfl⟩
    · have hcb : (t.conversationId != conv.id) = true := bne_iff_ne.mpr hc
      simp only [hcb, if_true]
      exact ⟨_, rfl⟩

/-- C5: an outbound send whose replyToMessageId names (a) no message,
(b) a message of a different conversation than the resolved destination,
or (c) a non-inbound message, is rejected with status 400 and no message
row is created — the message table after the handler equals the one
before. The hypotheses put the request past the field guards and the
destination resolution of the source, which run first. -/
theorem send_reply_validation
    (providerCreateOk sendThrows : Bool) (sendId : Option String)
    (st st1 : Store) (conv : Conversation) (req : SendRequest) (rid : String)
    (hg1 : (optFalsy req.conversationId && optFalsy req.«to») = false)
    (hg2 : (optFalsy req.body && optFalsy req.media_url) = false)
    (hres : resolveConversation st req = .ok (st1, conv))
    (hrid : req.replyToMessageId = some rid) (hridne : rid ≠ "")
    (hbad : getMessageById st1 rid = none ∨
      ∃ t, getMessageById st1 rid = some t ∧
        (t.conversationId ≠ conv.id ∨ t.direction ≠ "inbound")) :
    (∃ msg, sendMessageRoute providerCreateOk sendThrows sendId st req =
      (st1, .errJson 400 msg)) ∧
    st1.messages = st.messages := by
  refine ⟨?_, resolveConversation_messages st st1 conv req hres⟩
  obtain ⟨m, hm⟩ := replyCheck_bad st1 conv rid hridne hbad
  unfold sendMessageRoute
  simp only [hg1, Bool.false_eq_true, if_false, hg2, hres, hrid, hm]
  exact ⟨m, rfl⟩

/-- A find? scan skips a leading block on which the predicate is false. -/
theorem find?_append_none (l l2 : List MessageRow) (p : MessageRow → Bool)
    (h : ∀ r ∈ l, p r = false) : (l ++ l2).find? p = l2.find? p := by
  induction l with
  | nil => simp
  | cons a rest ih =>
    simp only [List.cons_append, List.find?_cons, h a (List.mem_cons_self a rest)]
    exact ih (fun r hr => h r (List.mem_cons_of_mem _ hr))

/-- C6: when the provider send call throws on a valid request, the
message row is still persisted locally with status failed and the response
still reports ok with that message included — the drafted message is never
dropped. The freshness hypothesis states that the generated id is not yet
in use, which the id generator of the real database guarantees. -/
theorem send_provider_failure_persists
    (sendId : Option String) (st st1 : Store) (conv : Conversation)
    (req : SendRequest)
    (hg1 : (optFalsy req.conversationId && optFalsy req.«to») = false)
    (hg2 : (optFalsy req.body && optFalsy req.media_url) = false)
    (hres : resolveConversation st req = .ok (st1, conv))
    (hreply : replyCheck st1 conv req.replyToMessageId = none)
    (hfresh : ∀ r ∈ st1.messages, r.id ≠ "m" ++ toString st1.nextId) :
    ∃ m st2 rt, sendMessageRoute true true sendId st req = (st2, .okJson m rt) ∧
      m.status = "failed" ∧ m.direction = "outbound" ∧
      m.conversationId = conv.id ∧
      st2.messages = st1.messages ++ [m] := by
  have hfreshb : ∀ r ∈ st1.messages, (r.id == "m" ++ toString st1.nextId) = false := by
    intro r hr
    cases hb : r.id == "m" ++ toString st1.nextId
    · rfl
    · exact absurd (beq_iff_eq.mp hb) (hfresh r hr)
  unfold sendMessageRoute
  simp only [hg1, Bool.false_eq_true, if_false, hg2, hres, hreply]
  unfold createMessage updateConversationLastAt getMessageWithReplyById getMessageById
  simp only
  rw [find?_append_none st1.messages _ _ hfreshb]
  simp only [List.find?_cons, beq_self_eq_true, if_true]
  exact ⟨_, _, _, rfl, rfl, rfl, rfl, rfl⟩

/-- Witness for C5: replying to the unknown id zzz in the sample state is
answered 400 with the message table unchanged. -/
theorem send_reply_validation_witness :
    (optFalsy sendReqBadReply.conversationId && optFalsy sendReqBadReply.«to») = false ∧
    (optFalsy sendReqBadReply.body && optFalsy sendReqBadReply.media_url) = false ∧
    resolveConversation sampleStore sendReqBadReply = .ok (sampleStore, conv1) ∧
    getMessageById sampleStore "zzz" = none ∧
    ((∃ msg, sendMessageRoute true false none sampleStore sendReqBadReply =
        (sampleStore, .errJson 400 msg)) ∧
      sampleStore.messages = sampleStore.messages) :=
  ⟨rfl, rfl, rfl, rfl,
   send_reply_validation true false none sampleStore sampleStore conv1
     sendReqBadReply "zzz" rfl rfl rfl rfl (by decide) (Or.inl rfl)⟩

/-- Witness for C6: with the provider throwing, sending body x to the
sample conversation persists a failed outbound row and answers ok. -/
theorem send_provider_failure_persists_witness :
    resolveConversation sampleStore sendReqNoReply = .ok (sampleStore, conv1) ∧
    replyCheck sampleStore conv1 sendReqNoReply.replyToMessageId = none ∧
    (∀ r ∈ sampleStore.messages, r.id ≠ "m" ++ toString sampleStore.nextId) ∧
    (∃ m st2 rt, sendMessageRoute true true none sampleStore sendReqNoReply =
        (st2, .okJson m rt) ∧
      m.status = "failed" ∧ m.direction = "outbound" ∧
      m.conversationId = conv1.id ∧
      st2.messages = sampleStore.messages ++ [m]) :=
  ⟨rfl, rfl, by decide,
   send_provider_failure_persists none sampleStore sampleStore conv1
     sendReqNoReply rfl rfl rfl rfl (by decide)⟩

/-- C4: evaluation of handleMetaWebhookEvent at the standard one-message
payload. With journal writes failing, the journal throw escapes the
ingestion loop, the outer catch attempts another journal write which
throws again, and the handler rejects with no response written — while the
same request with a working journal is answered 200 ok. A journal write
failure therefore aborts and changes the primary response, contradicting
the claim. -/
theorem webhook_journal_failure_changes_response :
    (handleMetaWebhookEvent
        { providerCreateOk := true, hasAppSecret := false,
          signatureValid := false, journalOk := false }
        emptyStore [] textPayload).2.2 = .unhandledRejection ∧
    (handleMetaWebhookEvent
        { providerCreateOk := true, hasAppSecret := false,
          signatureValid := false, journalOk := true }
        emptyStore [] textPayload).2.2 = .responded 200 "ok" := by
  constructor
  · decide
  · decide

/-- The verification handler never touches conversations or messages: the
state it returns is the state it was given, whatever the configuration. -/
theorem handleMetaWebhookVerification_store (jok : Bool) (env : ProviderEnv)
    (st : Store) (j : List JournalEntry) (q : VerifyQuery) :
    (handleMetaWebhookVerification jok env st j q).1 = st := by
  unfold handleMetaWebhookVerification
  dsimp only
  repeat' first
  | rfl
  | split

/-- C8 (amended): on the webhook GET handler, assuming provider creation
succeeds (the default instance is absent, or active with credentials) and
journal writes succeed: a subscribe-mode request with a challenge is
answered 500 when no verify token is configured, 403 Forbidden with a
journal entry when the token mismatches, and 200 with the raw challenge
when it matches; any other GET is answered 200 with the informational
text; and the handler never touches conversations or messages. -/
theorem webhook_verification_cases
    (env : ProviderEnv) (st : Store) (j : List JournalEntry) (q : VerifyQuery)
    (hprov : createMetaProviderE env = .ok ()) :
    (∀ jok, (handleMetaWebhookVerification jok env st j q).1 = st) ∧
    (∀ m c, q.mode = some m → q.challenge = some c →
      jsToLower m = "subscribe" →
      (expectedVerifyToken env = "" →
        handleMetaWebhookVerification true env st j q =
          (st, j ++ [{ status := 500, body := "Missing verify token configuration" }],
            .responded 500
              "Verify token is not configured. Set META_VERIFY_TOKEN or update the Default WhatsApp Instance.")) ∧
      (expectedVerifyToken env ≠ "" →
        q.verify_token ≠ some (expectedVerifyToken env) →
        handleMetaWebhookVerification true env st j q =
          (st, j ++ [{ status := 403, body := "Forbidden" }],
            .responded 403 "Forbidden")) ∧
      (expectedVerifyToken env ≠ "" →
        q.verify_token = some (expectedVerifyToken env) →
        handleMetaWebhookVerification true env st j q =
          (st, j ++ [{ status := 200, body := c }], .responded 200 c))) ∧
    (∀ m c, q.mode = some m → q.challenge = some c →
      jsToLower m ≠ "subscribe" →
      handleMetaWebhookVerification true env st j q =
        (st, j, .responded 200 webhookOnlineText)) ∧
    (q.mode = none ∨ q.challenge = none →
      handleMetaWebhookVerification true env st j q =
        (st, j, .responded 200 webhookOnlineText)) := by
  refine ⟨fun jok => handleMetaWebhookVerification_store jok env st j q,
    ?_, ?_, ?_⟩
  · intro m c hm hc hsub
    have hsubb : (jsToLower m == "subscribe") = true := beq_iff_eq.mpr hsub
    refine ⟨?_, ?_, ?_⟩
    · intro hexp
      have hexpb : (expectedVerifyToken env).isEmpty = true :=
        (String.isEmpty_iff _).mpr hexp
      unfold handleMetaWebhookVerification
      simp only [hm, hc, hsubb, if_true, hprov, logWebhookEventE, hexpb]
    · intro hexp htok
      have hexpb : (expectedVerifyToken env).isEmpty = false := by
        cases he : (expectedVerifyToken env).isEmpty
        · rfl
        · exact absurd ((String.isEmpty_iff _).mp he) hexp
      have htokb : (q.verify_token != some (expectedVerifyToken env)) = true :=
        bne_iff_ne.mpr htok
      unfold handleMetaWebhookVerification
      simp only [hm, hc, hsubb, if_true, hprov, logWebhookEventE, hexpb,
        Bool.false_eq_true, if_false, htokb]
    · intro hexp htok
      have hexpb : (expectedVerifyToken env).isEmpty = false := by
        cases he : (expectedVerifyToken env).isEmpty
        · rfl
        · exact absurd ((String.isEmpty_iff _).mp he) hexp
      have htokb : (q.verify_token != some (expectedVerifyToken env)) = false := by
        simp [htok]
      unfold handleMetaWebhookVerification
      simp only [hm, hc, hsubb, if_true, hprov, logWebhookEventE, hexpb,
        Bool.false_eq_true, if_false, htokb]
  · intro m c hm hc hsub
    have hsubb : (jsToLower m == "subscribe") = false := by
      cases he : jsToLower m == "subscribe"
      · rfl
      · exact absurd (beq_iff_eq.mp he) hsub
    unfold handleMetaWebhookVerification
    simp only [hm, hc, hsubb, Bool.false_eq_true, if_false]
  · intro hnone
    unfold handleMetaWebhookVerification
    rcases hnone with hm | hc
    · simp only [hm]
    · rcases hm : q.mode with _ | m
      · simp only [hm]
      · simp only [hm, hc]

/-- Witness for C8: with only the environment token abc configured, the
handshake presenting the wrong token is answered 403 Forbidden with a
journal entry and no state change. -/
theorem webhook_verification_cases_witness :
    createMetaProviderE envTokenOnly = .ok () ∧
    subscribeQueryWrong.mode = some "subscribe" ∧
    jsToLower "subscribe" = "subscribe" ∧
    expectedVerifyToken envTokenOnly ≠ "" ∧
    subscribeQueryWrong.verify_token ≠ some (expectedVerifyToken envTokenOnly) ∧
    handleMetaWebhookVerification true envTokenOnly emptyStore [] subscribeQueryWrong =
      (emptyStore, [{ status := 403, body := "Forbidden" }],
        .responded 403 "Forbidden") :=
  ⟨rfl, rfl, rfl, by decide, by decide,
   ((webhook_verification_cases envTokenOnly emptyStore [] subscribeQueryWrong
      rfl).2.1 "subscribe" "999" rfl rfl rfl).2.1 (by decide) (by decide)⟩

/-- C8 counterexample: with a disabled (but fully credentialed) default
instance whose verify token is abc, the handshake presenting the matching
token abc is answered 500 Error — provider creation throws before the
token is ever compared — instead of the claimed 200 with the challenge. -/
theorem webhook_verification_disabled_instance :
    (handleMetaWebhookVerification true disabledInstanceEnv emptyStore []
      subscribeQuery).2.2 = .responded 500 "Error" ∧
    subscribeQuery.verify_token = some "abc" ∧
    disabledInstanceEnv.defaultInstance = some disabledInstance ∧
    disabledInstance.webhookVerifyToken = some "abc" := by
  refine ⟨by decide, rfl, rfl, rfl⟩

/-- dropWhile is the identity when the head does not satisfy the predicate. -/
theorem dropWhile_eq_self_of_head? {p : Char → Bool} {l : List Char} {a : Char}
    (h : l.head? = some a) (hp : p a = false) : l.dropWhile p = l := by
  cases l with
  | nil => rfl
  | cons x xs =>
    injection h with h
    subst h
    simp [List.dropWhile_cons, hp]

/-- The head surviving a dropWhile does not satisfy the predicate. -/
theorem head?_dropWhile_false {p : Char → Bool} {l : List Char} {a : Char}
    (h : (l.dropWhile p).head? = some a) : p a = false := by
  induction l with
  | nil => cases h
  | cons x xs ih =>
    by_cases hx : p x = true
    · rw [List.dropWhile_cons, if_pos hx] at h
      exact ih h
    · rw [List.dropWhile_cons, if_neg hx] at h
      injection h with h
      subst h
      exact Bool.not_eq_true _ |>.mp hx

/-- Trimming is the identity on a list whose two ends are not whitespace. -/
theorem jsTrimChars_eq_self {l : List Char} {a z : Char}
    (ha : l.head? = some a) (hsa : isJsSpace a = false)
    (hz : l.getLast? = some z) (hsz : isJsSpace z = false) :
    jsTrimChars l = l := by
  unfold jsTrimChars
  rw [dropWhile_eq_self_of_head? ha hsa]
  rw [dropWhile_eq_self_of_head? (by rw [List.head?_reverse]; exact hz) hsz]
  exact List.reverse_reverse l

/-- Unfolding equation of collapseSlashes on two cons cells. -/
theorem collapseSlashes_cons_cons (a b : Char) (r : List Char) :
    collapseSlashes (a :: b :: r) =
      if (a == '/' && b == '/') = true then collapseSlashes (b :: r)
      else a :: collapseSlashes (b :: r) := rfl

/-- Unfolding equation of hasDoubleSlash on two cons cells. -/
theorem hasDoubleSlash_cons_cons (a b : Char) (r : List Char) :
    hasDoubleSlash (a :: b :: r) =
      ((a == '/' && b == '/') || hasDoubleSlash (b :: r)) := rfl

/-- Collapsing preserves the head character. -/
theorem collapseSlashes_cons (l : List Char) : ∀ a : Char,
    ∃ t, collapseSlashes (a :: l) = a :: t := by
  induction l with
  | nil => exact fun a => ⟨[], rfl⟩
  | cons b r ih =>
    intro a
    by_cases hab : (a == '/' && b == '/') = true
    · obtain ⟨t, ht⟩ := ih b
      have hae : a = b := by
        have h1 := beq_iff_eq.mp (Bool.and_elim_left hab)
        have h2 := beq_iff_eq.mp (Bool.and_elim_right hab)
        rw [h1, h2]
      rw [collapseSlashes_cons_cons, if_pos hab, ht, hae]
      exact ⟨t, rfl⟩
    · rw [collapseSlashes_cons_cons, if_neg hab]
      exact ⟨collapseSlashes (b :: r), rfl⟩

/-- Collapsing leaves no double slash. -/
theorem hasDoubleSlash_collapse (l : List Char) :
    hasDoubleSlash (collapseSlashes l) = false := by
  induction l with
  | nil => rfl
  | cons a t ih =>
    cases t with
    | nil => rfl
    | cons b r =>
      by_cases hab : (a == '/' && b == '/') = true
      · rw [collapseSlashes_cons_cons, if_pos hab]
        exact ih
      · rw [collapseSlashes_cons_cons, if_neg hab]
        obtain ⟨t2, ht2⟩ := collapseSlashes_cons r b
        rw [ht2]
        rw [hasDoubleSlash_cons_cons]
        rw [ht2] at ih
        simp [ih, Bool.not_eq_true _ |>.mp hab]

/-- Collapsing is the identity on lists without double slashes. -/
theorem collapseSlashes_eq_self {l : List Char}
    (h : hasDoubleSlash l = false) : collapseSlashes l = l := by
  induction l with
  | nil => rfl
  | cons a t ih =>
    cases t with
    | nil => rfl
    | cons b r =>
      rw [hasDoubleSlash_cons_cons] at h
      have hab : (a == '/' && b == '/') = false := by
        cases hx : (a == '/' && b == '/')
        · rfl
        · rw [hx] at h; simp at h
      have hrest : hasDoubleSlash (b :: r) = false := by
        cases hx : hasDoubleSlash (b :: r)
        · rfl
        · rw [hx] at h; simp at h
      rw [collapseSlashes_cons_cons, if_neg (by simp [hab])]
      rw [ih hrest]

/-- A double-slash-free list has double-slash-free prefixes. -/
theorem hasDoubleSlash_append_left : ∀ l1 l2 : List Char,
    hasDoubleSlash (l1 ++ l2) = false → hasDoubleSlash l1 = false := by
  intro l1
  induction l1 with
  | nil => intro l2 h; rfl
  | cons a t ih =>
    intro l2 h
    cases t with
    | nil => rfl
    | cons b r =>
      rw [List.cons_append, List.cons_append, hasDoubleSlash_cons_cons] at h
      have hab : (a == '/' && b == '/') = false := by
        cases hx : (a == '/' && b == '/')
        · rfl
        · rw [hx] at h; simp at h
      have hrest : hasDoubleSlash ((b :: r) ++ l2) = false := by
        cases hx : hasDoubleSlash ((b :: r) ++ l2)
        · rfl
        · rw [List.cons_append] at hx; rw [hx] at h; simp at h
      rw [hasDoubleSlash_cons_cons, hab, ih l2 hrest]
      rfl

/-- Dropping trailing slashes yields a prefix of the list. -/
theorem dropTrailingSlashes_append (l : List Char) :
    ∃ l2, l = dropTrailingSlashes l ++ l2 := by
  refine ⟨(l.reverse.takeWhile (· == '/')).reverse, ?_⟩
  unfold dropTrailingSlashes
  rw [← List.reverse_append, List.takeWhile_append_dropWhile, List.reverse_reverse]

/-- After dropping trailing slashes the last character is not a slash. -/
theorem getLast?_dropTrailingSlashes {l : List Char} {c : Char}
    (h : (dropTrailingSlashes l).getLast? = some c) : (c == '/') = false := by
  unfold dropTrailingSlashes at h
  rw [List.getLast?_reverse] at h
  exact @head?_dropWhile_false (fun x => x == '/') l.reverse c h

/-- A list starts with any of its prefixes. -/
theorem startsWithL_append_self : ∀ p l : List Char,
    startsWithL p (p ++ l) = true := by
  intro p
  induction p with
  | nil => intro l; rfl
  | cons a t ih =>
    intro l
    rw [List.cons_append]
    show (a == a && startsWithL t (t ++ l)) = true
    simp [ih l]

/-- Starting with a nonempty sequence pins the head character. -/
theorem startsWithL_head? {a : Char} {p l : List Char}
    (h : startsWithL (a :: p) l = true) : l.head? = some a := by
  cases l with
  | nil => cases h
  | cons x xs =>
    have : (a == x && startsWithL p xs) = true := h
    have hax := beq_iff_eq.mp (Bool.and_elim_left this)
    rw [hax]
    rfl

/-- A non-slash head cannot contribute a double slash. -/
theorem hasDoubleSlash_cons_ne {a : Char} (l : List Char)
    (ha : (a == '/') = false) : hasDoubleSlash (a :: l) = hasDoubleSlash l := by
  cases l with
  | nil => rfl
  | cons b r =>
    rw [hasDoubleSlash_cons_cons, ha]
    rfl

/-- Prepending the /webhook namespace introduces no double slash. -/
theorem hasDoubleSlash_webhook_append (n : List Char)
    (h : hasDoubleSlash n = false) :
    hasDoubleSlash ("/webhook".data ++ n) = false := by
  have hd : "/webhook".data = ['/', 'w', 'e', 'b', 'h', 'o', 'o', 'k'] := rfl
  rw [hd]
  simp only [List.cons_append, List.nil_append, hasDoubleSlash_cons_cons,
    hasDoubleSlash_cons_ne n (show (('k' : Char) == '/') = false from rfl)]
  simp [h]

/-- A slash head means the list starts with a slash. -/
theorem startsWithL_slash_of_head? {l : List Char} (h : l.head? = some '/') :
    startsWithL ['/'] l = true := by
  cases l with
  | nil => cases h
  | cons x xs =>
    injection h with h
    subst h
    show (('/' : Char) == '/' && true) = true
    rfl

/-- Only nonempty lists start with a nonempty sequence. -/
theorem startsWithL_ne_nil {a : Char} {p l : List Char}
    (h : startsWithL (a :: p) l = true) : l ≠ [] := by
  intro he
  subst he
  cases h

/-- Structure of every normalizer output: it starts with the /webhook
namespace, contains no run of slashes, and does not end in a slash. -/
theorem normalizeWebhookPath_struct (p : String) :
    startsWithL "/webhook".data (normalizeWebhookPath p).data = true ∧
    hasDoubleSlash (normalizeWebhookPath p).data = false ∧
    (∀ c, (normalizeWebhookPath p).data.getLast? = some c → (c == '/') = false) := by
  have hd : "/webhook".data = ['/', 'w', 'e', 'b', 'h', 'o', 'o', 'k'] := rfl
  unfold normalizeWebhookPath
  dsimp only
  by_cases h0 : (jsTrimChars p.data).length = 0
  · rw [if_pos h0]
    refine ⟨rfl, rfl, fun c hc => ?_⟩
    have hlast : ("/webhook/meta" : String).data.getLast? = some 'a' := rfl
    rw [hlast] at hc
    injection hc with hc
    subst hc
    rfl
  · rw [if_neg h0]
    set t := jsTrimChars p.data with ht
    set n1 := if startsWithL ['/'] t = true then t else '/' :: t with hn1
    set n2 := collapseSlashes n1 with hn2
    set n3 := if 1 < n2.length ∧ n2.getLast? = some '/' then dropTrailingSlashes n2
      else n2 with hn3
    set n4 := if startsWithL "/webhook".data n3 = true then n3
      else "/webhook".data ++ (if n3 = ['/'] then [] else n3) with hn4
    -- head of n1 is a slash
    have hh1 : n1.head? = some '/' := by
      rw [hn1]
      by_cases hsw : startsWithL ['/'] t = true
      · rw [if_pos hsw]
        exact startsWithL_head? hsw
      · rw [if_neg hsw]
        rfl
    -- n2 is n1-headed, slash-headed, and has no double slash
    obtain ⟨r1, hr1⟩ : ∃ r, n1 = '/' :: r := by
      cases hcl : n1 with
      | nil => rw [hcl] at hh1; cases hh1
      | cons x xs =>
        rw [hcl] at hh1
        injection hh1 with hh1
        subst hh1
        exact ⟨xs, rfl⟩
    obtain ⟨r2, hr2⟩ : ∃ r, n2 = '/' :: r := by
      obtain ⟨t2, ht2⟩ := collapseSlashes_cons r1 '/'
      exact ⟨t2, by rw [hn2, hr1, ht2]⟩
    have hds2 : hasDoubleSlash n2 = false := by
      rw [hn2]
      exact hasDoubleSlash_collapse n1
    -- n3 facts
    have hds3 : hasDoubleSlash n3 = false := by
      rw [hn3]
      by_cases hstrip : 1 < n2.length ∧ n2.getLast? = some '/'
      · rw [if_pos hstrip]
        obtain ⟨l2, hl2⟩ := dropTrailingSlashes_append n2
        exact hasDoubleSlash_append_left _ l2 (by rw [← hl2]; exact hds2)
      · rw [if_neg hstrip]
        exact hds2
    have hlast3 : ∀ c, n3.getLast? = some c → (c == '/') = false ∨ n3 = ['/'] := by
      intro c hc
      rw [hn3] at hc
      by_cases hstrip : 1 < n2.length ∧ n2.getLast? = some '/'
      · rw [if_pos hstrip] at hc
        exact Or.inl (getLast?_dropTrailingSlashes hc)
      · rw [if_neg hstrip] at hc
        by_cases hcs : (c == '/') = false
        · exact Or.inl hcs
        · have hcsl : c = '/' := by
            cases hx : c == '/'
            · exact absurd hx hcs
            · exact beq_iff_eq.mp hx
          subst hcsl
          right
          have hlen : ¬ 1 < n2.length := fun hl => hstrip ⟨hl, hc⟩
          rw [hn3, if_neg hstrip]
          rw [hr2] at hlen ⊢
          cases r2 with
          | nil => rfl
          | cons y ys =>
            exfalso
            apply hlen
            simp [List.length_cons]
    -- n4 analysis
    have hne4 : n4 ≠ [] := by
      rw [hn4]
      by_cases hpre : startsWithL "/webhook".data n3 = true
      · rw [if_pos hpre]
        rw [hd] at hpre
        exact startsWithL_ne_nil hpre
      · rw [if_neg hpre]
        rw [hd]
        intro hx
        cases hx
    have hS : startsWithL "/webhook".data n4 = true := by
      rw [hn4]
      by_cases hpre : startsWithL "/webhook".data n3 = true
      · rw [if_pos hpre]
        exact hpre
      · rw [if_neg hpre]
        exact startsWithL_append_self _ _
    have hD : hasDoubleSlash n4 = false := by
      rw [hn4]
      by_cases hpre : startsWithL "/webhook".data n3 = true
      · rw [if_pos hpre]
        exact hds3
      · rw [if_neg hpre]
        by_cases hroot : n3 = ['/']
        · rw [if_pos hroot, List.append_nil]
          rfl
        · rw [if_neg hroot]
          exact hasDoubleSlash_webhook_append n3 hds3
    have hL : ∀ c, n4.getLast? = some c → (c == '/') = false := by
      intro c hc
      rw [hn4] at hc
      by_cases hpre : startsWithL "/webhook".data n3 = true
      · rw [if_pos hpre] at hc
        rcases hlast3 c hc with h | h
        · exact h
        · rw [h] at hpre
          exact absurd hpre (by decide)
      · rw [if_neg hpre] at hc
        by_cases hroot : n3 = ['/']
        · rw [if_pos hroot, List.append_nil] at hc
          have : ("/webhook".data).getLast? = some 'k' := rfl
          rw [this] at hc
          injection hc with hc
          subst hc
          rfl
        · rw [if_neg hroot] at hc
          cases hn3e : n3 with
          | nil =>
            rw [hn3e, List.append_nil] at hc
            have : ("/webhook".data).getLast? = some 'k' := rfl
            rw [this] at hc
            injection hc with hc
            subst hc
            rfl
          | cons y ys =>
            rw [List.getLast?_append_of_ne_nil _ (by rw [hn3e]; intro hx; cases hx)] at hc
            rcases hlast3 c hc with h | h
            · exact h
            · exact absurd h hroot
    -- assemble
    have hne4b : ¬ (n4.isEmpty = true) := by
      intro hx
      exact hne4 (List.isEmpty_iff.mp hx)
    rw [if_neg hne4b]
    exact ⟨hS, hD, hL⟩

/-- Normalizing is idempotent on every input whose normal form does not
end in trim-removable whitespace: such an output is left fixed, since
trimming, slash collapsing, trailing-slash stripping and the namespace
test are all the identity on it. -/
theorem normalizeWebhookPath_idem (p : String)
    (hw : endsWithJsSpace (normalizeWebhookPath p) = false) :
    normalizeWebhookPath (normalizeWebhookPath p) = normalizeWebhookPath p := by
  obtain ⟨hS, hD, hL⟩ := normalizeWebhookPath_struct p
  set q := normalizeWebhookPath p with hq
  have hd : "/webhook".data = ['/', 'w', 'e', 'b', 'h', 'o', 'o', 'k'] := rfl
  have hhead : q.data.head? = some '/' := by
    rw [hd] at hS
    exact startsWithL_head? hS
  have hne : q.data ≠ [] := by
    intro hx
    rw [hx] at hhead
    cases hhead
  -- the last character: not a slash and not whitespace
  obtain ⟨z, hz⟩ : ∃ z, q.data.getLast? = some z := by
    cases hx : q.data.getLast? with
    | none => exact absurd (List.getLast?_eq_none_iff.mp hx) hne
    | some z => exact ⟨z, rfl⟩
  have hzs : isJsSpace z = false := by
    unfold endsWithJsSpace at hw
    rw [hz] at hw
    exact hw
  have hzslash : (z == '/') = false := hL z hz
  -- trimming is the identity on q
  have htrim : jsTrimChars q.data = q.data :=
    jsTrimChars_eq_self hhead (by rfl) hz hzs
  have hlen0 : ¬ ((q.data : List Char).length = 0) := by
    intro hx
    exact hne (List.length_eq_zero.mp hx)
  have hstripneg : ¬ (1 < (q.data : List Char).length ∧
      (q.data : List Char).getLast? = some '/') := by
    rintro ⟨_, hlast⟩
    rw [hz] at hlast
    injection hlast with hlast
    rw [hlast] at hzslash
    simp at hzslash
  have hemptyneg : ¬ ((q.data : List Char).isEmpty = true) := by
    intro hx
    exact hne (List.isEmpty_iff.mp hx)
  unfold normalizeWebhookPath
  dsimp only
  rw [htrim]
  rw [if_neg hlen0]
  rw [if_pos (startsWithL_slash_of_head? hhead)]
  rw [collapseSlashes_eq_self hD]
  rw [if_neg hstripneg]
  rw [if_pos hS]
  rw [if_neg hemptyneg]

/-- C7 (amended): normalizeWebhookPath is a total pure function on strings
that forces the reserved /webhook namespace as leading part, collapses
runs of slashes and strips trailing slashes; it is idempotent for every
input whose normalized form does not end in a whitespace character that
trim removes. (Inputs like "/webhook/a /" violate unrestricted
idempotence: stripping the trailing slash exposes trailing whitespace
that only the second normalization trims.) -/
theorem normalizeWebhookPath_props :
    (∀ p : String,
      startsWithL "/webhook".data (normalizeWebhookPath p).data = true) ∧
    (∀ p : String, hasDoubleSlash (normalizeWebhookPath p).data = false) ∧
    (∀ (p : String) (c : Char),
      (normalizeWebhookPath p).data.getLast? = some c → (c == '/') = false) ∧
    (∀ p : String, endsWithJsSpace (normalizeWebhookPath p) = false →
      normalizeWebhookPath (normalizeWebhookPath p) = normalizeWebhookPath p) :=
  ⟨fun p => (normalizeWebhookPath_struct p).1,
   fun p => (normalizeWebhookPath_struct p).2.1,
   fun p => (normalizeWebhookPath_struct p).2.2,
   normalizeWebhookPath_idem⟩

/-- Witness for C7: the doubled-slash input with trailing slash collapses
to a fixed point of the normalizer. -/
theorem normalizeWebhookPath_props_witness :
    endsWithJsSpace (normalizeWebhookPath "//a//b/") = false ∧
    normalizeWebhookPath (normalizeWebhookPath "//a//b/") =
      normalizeWebhookPath "//a//b/" ∧
    normalizeWebhookPath "//a//b/" = "/webhook/a/b" ∧
    (normalizeWebhookPath "//a//b/").data.getLast? = some 'b' ∧
    (('b' : Char) == '/') = false :=
  ⟨by decide, normalizeWebhookPath_props.2.2.2 "//a//b/" (by decide),
   by decide,
   by decide,
   normalizeWebhookPath_props.2.2.1 "//a//b/" 'b' (by decide)⟩

/-- C7 counterexample: normalizing "/webhook/a /" gives "/webhook/a " —
stripping the trailing slash exposes a trailing space — and normalizing
again trims it to "/webhook/a", so normalize of normalize differs from
normalize: the function is not idempotent on all strings. -/
theorem normalizeWebhookPath_not_idempotent :
    normalizeWebhookPath (normalizeWebhookPath "/webhook/a /") ≠
      normalizeWebhookPath "/webhook/a /" ∧
    normalizeWebhookPath "/webhook/a /" = "/webhook/a " ∧
    normalizeWebhookPath "/webhook/a " = "/webhook/a" :=
  ⟨by decide, by decide, by decide⟩
